import Mathlib

/-!
Shallow embedding of the persistence layer of the shopping-list PWA
(`src/lib/db.ts` and the `useLiveQuery` hook).

Modelling conventions:
* JS numbers (prices, totals, averages) are rationals, so division is exact.
* A JS `Date` is modelled by its absolute calendar month `ym`
  (getFullYear * 12 + getMonth) together with its instant `tick` (getTime);
  the analytics bucket by `ym`, list ordering compares `tick`.
* `uuid()` is modelled by a monotone counter `nextUuid` threaded through the
  store state: each draw yields a fresh identifier, distinct from all earlier
  ones, which is the intended behaviour of uuid v4.
* Storage-engine faults are modelled by an `Engine` record of per-store
  failure flags: a `true` flag means every IndexedDB access to that store
  throws, which drives the try/catch branches of the source.
* The event emissions of the mutation functions are accumulated in an
  `events` log inside the state.
-/

/-- A JS Date, reduced to the two projections the code uses: the absolute
calendar month `ym` and the millisecond instant `tick`. -/
structure Date where
  ym : Int
  tick : Int
  deriving DecidableEq, Repr

/-- A shopping list record (`List` in `types.ts`): id, name, currency,
creation and update timestamps, and the optional soft-deletion timestamp. -/
structure ListRec where
  id : Nat
  name : String
  currency : String
  createdAt : Date
  updatedAt : Date
  deletedAt : Option Date
  deriving DecidableEq, Repr

/-- An item record (`Item` in `types.ts`): belongs to a list, with quantity,
unit price, purchased flag, optional purchase/creation timestamps and
optional category. -/
structure Item where
  id : Nat
  listId : Nat
  name : String
  qty : Nat
  price : Rat
  purchased : Bool
  purchasedAt : Option Date
  createdAt : Option Date
  category : Option String
  deriving DecidableEq, Repr

/-- A product statistics record (`ProductStat`), keyed by item name. -/
structure ProductStat where
  name : String
  usedCount : Nat
  totalSpend : Rat
  lastUsed : Date
  averagePrice : Rat
  category : Option String
  deriving DecidableEq, Repr

/-- The argument of `createList`: `Omit(List, id/createdAt/updatedAt)`.
The object spread in `createList` keeps any `deletedAt` present in the
payload, so the field is part of the data. -/
structure ListData where
  name : String
  currency : String
  deletedAt : Option Date
  deriving DecidableEq, Repr

/-- The argument of `createItem`: `Omit(Item, id)`. -/
structure ItemData where
  listId : Nat
  name : String
  qty : Nat
  price : Rat
  purchased : Bool
  purchasedAt : Option Date
  createdAt : Option Date
  category : Option String
  deriving DecidableEq, Repr

/-- Attach a fresh id to an item payload, as `createItem` does. -/
def ItemData.withId (d : ItemData) (id : Nat) : Item :=
  ⟨id, d.listId, d.name, d.qty, d.price, d.purchased, d.purchasedAt,
    d.createdAt, d.category⟩

/-- Forget the id of an item, recovering the `createItem` payload; used when
a queued `createItem` operation is replayed. -/
def Item.toData (it : Item) : ItemData :=
  ⟨it.listId, it.name, it.qty, it.price, it.purchased, it.purchasedAt,
    it.createdAt, it.category⟩

/-- `Partial(Omit(List, id/createdAt))` restricted to the fields callers
supply: a provided field is `some`, an absent field is `none`. -/
structure ListUpdate where
  name : Option String
  currency : Option String
  deriving DecidableEq, Repr

/-- `Partial(Omit(Item, id))`: a provided field is `some`, an absent field
is `none`. -/
structure ItemUpdate where
  listId : Option Nat
  name : Option String
  qty : Option Nat
  price : Option Rat
  purchased : Option Bool
  purchasedAt : Option Date
  category : Option String
  deriving DecidableEq, Repr

/-- Payload of an offline-queue entry: the operation name together with the
data the source serializes for it. -/
inductive OpData where
  | opCreateList (l : ListRec)
  | opUpdateList (id : Nat) (u : ListUpdate)
  | opDeleteList (id : Nat)
  | opCreateItem (it : Item)
  | opUpdateItem (id : Nat) (u : ItemUpdate)
  | opDeleteItem (id : Nat)
  deriving DecidableEq, Repr

/-- An entry of the offline write queue (`OfflineOperation`). -/
structure OfflineOperation where
  id : Nat
  op : OpData
  timestamp : Date
  deriving DecidableEq, Repr

/-- An emission on the change notifier: event name is determined by the
constructor, carrying the action tag and the affected record. -/
inductive DBEvent where
  | listsChanged (action : String) (l : ListRec)
  | itemsChanged (action : String) (it : Item)
  deriving DecidableEq, Repr

/-- Per-store failure flags of the storage engine: a `true` flag makes every
access to that store throw, which the source operations catch. -/
structure Engine where
  listsFail : Bool
  itemsFail : Bool
  statsFail : Bool
  deriving DecidableEq, Repr

/-- The fully available engine: no store access throws. -/
def Engine.ok : Engine := ⟨false, false, false⟩

/-- The full state of the persistence layer: the three object stores the
claims touch, the offline queue, the log of emitted events, and the uuid
counter. -/
structure DBState where
  lists : List ListRec
  items : List Item
  stats : List ProductStat
  queue : List OfflineOperation
  events : List DBEvent
  nextUuid : Nat
  deriving DecidableEq, Repr

/-- `db.get('lists', id)`. -/
def findList (ls : List ListRec) (id : Nat) : Option ListRec :=
  ls.find? (fun l => l.id == id)

/-- `db.get('items', id)`. -/
def findItem (its : List Item) (id : Nat) : Option Item :=
  its.find? (fun it => it.id == id)

/-- `db.get('productStats', name)`. -/
def findStat (ss : List ProductStat) (name : String) : Option ProductStat :=
  ss.find? (fun s => s.name == name)

/-- `db.put('lists', r)`: replace the record with the same key, else add. -/
def putList : List ListRec → ListRec → List ListRec
  | [], r => [r]
  | x :: xs, r => if x.id == r.id then r :: xs else x :: putList xs r

/-- `db.put('items', r)`. -/
def putItem : List Item → Item → List Item
  | [], r => [r]
  | x :: xs, r => if x.id == r.id then r :: xs else x :: putItem xs r

/-- `db.put('productStats', r)`, keyed by name. -/
def putStat : List ProductStat → ProductStat → List ProductStat
  | [], r => [r]
  | x :: xs, r => if x.name == r.name then r :: xs else x :: putStat xs r

/-- `queueOfflineOperation(operation, data)`: draw a fresh uuid for the
entry, append it to the queue, mirror to localStorage (the mirror is the
queue itself here). -/
def queueOp (now : Date) (st : DBState) (op : OpData) : DBState :=
  { st with
    queue := st.queue ++ [⟨st.nextUuid, op, now⟩],
    nextUuid := st.nextUuid + 1 }

/-- `createList`: build the record with a fresh uuid and fresh timestamps
(before the try block), then either persist it and emit
`lists-changed/create`, or — when the lists store throws — queue a
`createList` operation; either way the constructed record is returned. -/
def createList (eng : Engine) (now : Date) (st : DBState) (d : ListData) :
    DBState × ListRec :=
  let list : ListRec := ⟨st.nextUuid, d.name, d.currency, now, now, d.deletedAt⟩
  let st1 := { st with nextUuid := st.nextUuid + 1 }
  if eng.listsFail then
    (queueOp now st1 (OpData.opCreateList list), list)
  else
    ({ st1 with
        lists := putList st1.lists list,
        events := st1.events ++ [DBEvent.listsChanged "create" list] }, list)

/-- Merge-patch of a list record plus the `updatedAt` refresh of
`updateList`. -/
def applyListUpdate (ex : ListRec) (u : ListUpdate) (now : Date) : ListRec :=
  { ex with
    name := u.name.getD ex.name,
    currency := u.currency.getD ex.currency,
    updatedAt := now }

/-- `updateList`: a throwing lists store queues the operation and yields
null; a missing or soft-deleted record yields null without writing;
otherwise the merged record is persisted and `lists-changed/update`
emitted. -/
def updateList (eng : Engine) (now : Date) (st : DBState) (id : Nat)
    (u : ListUpdate) : DBState × Option ListRec :=
  if eng.listsFail then
    (queueOp now st (OpData.opUpdateList id u), none)
  else
    match findList st.lists id with
    | none => (st, none)
    | some ex =>
      if ex.deletedAt.isSome then (st, none)
      else
        let upd := applyListUpdate ex u now
        ({ st with
            lists := putList st.lists upd,
            events := st.events ++ [DBEvent.listsChanged "update" upd] },
          some upd)

/-- `deleteList`: soft delete — stamp `deletedAt` and refresh `updatedAt`;
returns false when the record is missing or the store throws (queueing the
operation in the latter case). -/
def deleteList (eng : Engine) (now : Date) (st : DBState) (id : Nat) :
    DBState × Bool :=
  if eng.listsFail then
    (queueOp now st (OpData.opDeleteList id), false)
  else
    match findList st.lists id with
    | none => (st, false)
    | some ex =>
      let del := { ex with deletedAt := some now, updatedAt := now }
      ({ st with
          lists := putList st.lists del,
          events := st.events ++ [DBEvent.listsChanged "delete" del] }, true)

/-- The record built by `updateProductStats`: increment the usage count,
add the unit price to the cumulative spend, recompute the running average,
refresh `lastUsed`, keep the old category when none is supplied. (The JS
`category || existing?.category` also drops an empty-string category;
callers never pass one, so the option fallback is the faithful model.) -/
def newStat (existing : Option ProductStat) (name : String) (price : Rat)
    (category : Option String) (now : Date) : ProductStat :=
  let newUsedCount := match existing with
    | some e => e.usedCount + 1
    | none => 1
  let newTotalSpend := match existing with
    | some e => e.totalSpend + price
    | none => price
  { name := name,
    usedCount := newUsedCount,
    totalSpend := newTotalSpend,
    lastUsed := now,
    averagePrice := newTotalSpend / (newUsedCount : Rat),
    category := category.or (existing.bind ProductStat.category) }

/-- `updateProductStats`: upsert the statistics record keyed by name; every
storage error is caught and swallowed, leaving the state unchanged. -/
def updateProductStats (eng : Engine) (now : Date) (st : DBState)
    (name : String) (price : Rat) (category : Option String) : DBState :=
  if eng.statsFail then st
  else
    { st with
      stats := putStat st.stats (newStat (findStat st.stats name) name price category now) }

/-- `createItem`: build the item with a fresh uuid, then either persist it,
upsert the product statistics and emit `items-changed/create`, or — when
the items store throws — queue a `createItem` operation; the constructed
item is returned either way. -/
def createItem (eng : Engine) (now : Date) (st : DBState) (d : ItemData) :
    DBState × Item :=
  let item := d.withId st.nextUuid
  let st1 := { st with nextUuid := st.nextUuid + 1 }
  if eng.itemsFail then
    (queueOp now st1 (OpData.opCreateItem item), item)
  else
    let st2 := { st1 with items := putItem st1.items item }
    let st3 := updateProductStats eng now st2 item.name item.price item.category
    ({ st3 with events := st3.events ++ [DBEvent.itemsChanged "create" item] },
      item)

/-- Merge-patch of an item record (`{...existing, ...updates}`). -/
def applyItemUpdate (ex : Item) (u : ItemUpdate) : Item :=
  { ex with
    listId := u.listId.getD ex.listId,
    name := u.name.getD ex.name,
    qty := u.qty.getD ex.qty,
    price := u.price.getD ex.price,
    purchased := u.purchased.getD ex.purchased,
    purchasedAt := u.purchasedAt.or ex.purchasedAt,
    category := u.category.or ex.category }

/-- `updateItem`: a throwing items store queues the operation and yields
null; a missing record yields null without writing; otherwise the merged
record is persisted, the product statistics are upserted when the patch
supplies a name or a price, and `items-changed/update` is emitted. -/
def updateItem (eng : Engine) (now : Date) (st : DBState) (id : Nat)
    (u : ItemUpdate) : DBState × Option Item :=
  if eng.itemsFail then
    (queueOp now st (OpData.opUpdateItem id u), none)
  else
    match findItem st.items id with
    | none => (st, none)
    | some ex =>
      let upd := applyItemUpdate ex u
      let st1 := { st with items := putItem st.items upd }
      let st2 := if u.name.isSome || u.price.isSome then
          updateProductStats eng now st1 upd.name upd.price upd.category
        else st1
      ({ st2 with events := st2.events ++ [DBEvent.itemsChanged "update" upd] },
        some upd)

/-- `deleteItem`: hard delete; returns false when the record is missing or
the store throws (queueing the operation in the latter case). -/
def deleteItem (eng : Engine) (now : Date) (st : DBState) (id : Nat) :
    DBState × Bool :=
  if eng.itemsFail then
    (queueOp now st (OpData.opDeleteItem id), false)
  else
    match findItem st.items id with
    | none => (st, false)
    | some ex =>
      ({ st with
          items := st.items.filter (fun it => it.id != id),
          events := st.events ++ [DBEvent.itemsChanged "delete" ex] }, true)

/-- Ordering used by `getLists`: the comparator
`(a, b) => b.updatedAt.getTime() - a.updatedAt.getTime()` sorts by
last-update instant, most recent first. -/
def listsDescOrd (a b : ListRec) : Prop :=
  b.updatedAt.tick ≤ a.updatedAt.tick

instance : DecidableRel listsDescOrd := fun a b =>
  inferInstanceAs (Decidable (b.updatedAt.tick ≤ a.updatedAt.tick))

instance : IsTotal ListRec listsDescOrd :=
  ⟨fun a b => (Int.le_total a.updatedAt.tick b.updatedAt.tick).symm⟩

instance : IsTrans ListRec listsDescOrd :=
  ⟨fun _ _ _ hab hbc => le_trans hbc hab⟩

/-- `getLists` on an available store: drop soft-deleted records, then sort
by last-update descending (JS `Array.prototype.sort` is stable; insertion
sort is its stable model). -/
def getLists (st : DBState) : List ListRec :=
  List.insertionSort listsDescOrd (st.lists.filter (fun l => l.deletedAt.isNone))

/-- Replay one queued operation, dispatching on the operation name exactly
as the switch of `processOfflineQueue` does and discarding the result. The
re-queue branch of the surrounding try/catch is unreachable here because
every dispatched store function catches its own storage faults, as in the
source. -/
def replayOp (eng : Engine) (now : Date) (st : DBState)
    (o : OfflineOperation) : DBState :=
  match o.op with
  | OpData.opCreateList l => (createList eng now st ⟨l.name, l.currency, l.deletedAt⟩).1
  | OpData.opUpdateList id u => (updateList eng now st id u).1
  | OpData.opDeleteList id => (deleteList eng now st id).1
  | OpData.opCreateItem it => (createItem eng now st it.toData).1
  | OpData.opUpdateItem id u => (updateItem eng now st id u).1
  | OpData.opDeleteItem id => (deleteItem eng now st id).1

/-- `processOfflineQueue`: return immediately on an empty queue; otherwise
snapshot the queue, clear the live queue, and replay the snapshot in
enqueue order (persisting the remaining queue at the end — the queue field
is its own mirror here). -/
def processOfflineQueue (eng : Engine) (now : Date) (st : DBState) : DBState :=
  if st.queue.isEmpty then st
  else List.foldl (replayOp eng now) { st with queue := [] } st.queue

/-- The effective date of an item for the monthly buckets:
`item.purchasedAt || item.createdAt || new Date()` (Date objects are always
truthy), projected to the calendar month. -/
def effectiveYm (now : Date) (it : Item) : Int :=
  match it.purchasedAt with
  | some d => d.ym
  | none =>
    match it.createdAt with
    | some d => d.ym
    | none => now.ym

/-- `monthlyTotals.set(key, (get(key) || 0) + amount)`: association-list
model of the Map accumulation in `calculateMonthlySpending`. -/
def addToTotals : List (Int × Rat) → Int → Rat → List (Int × Rat)
  | [], k, a => [(k, a)]
  | (k0, a0) :: rest, k, a =>
    if k0 == k then (k0, a0 + a) :: rest
    else (k0, a0) :: addToTotals rest k a

/-- `monthlyTotals.get(key) || 0`. -/
def lookupTotal (m : List (Int × Rat)) (k : Int) : Rat :=
  match m.find? (fun p => p.1 == k) with
  | some p => p.2
  | none => 0

/-- The accumulation loop of `calculateMonthlySpending`: fold the purchased
items into per-month totals of price × quantity, bucketed by effective
date. -/
def monthlyTotals (now : Date) (purchasedItems : List Item) : List (Int × Rat) :=
  purchasedItems.foldl
    (fun m it => addToTotals m (effectiveYm now it) (it.price * (it.qty : Rat)))
    []

/-- `calculateMonthlySpending`: emit the trailing 12 calendar months ending
at the current month, oldest first (the source loop runs i = 11 down to 0,
pushing month now − i; entry j of the result is i = 11 − j). The month
label renders the `ym` key, which this model keeps as the key itself. -/
def calculateMonthlySpending (now : Date) (purchasedItems : List Item) :
    List (Int × Rat) :=
  (List.range 12).map (fun (j : Nat) =>
    let ym := now.ym - (11 - (j : Int))
    (ym, lookupTotal (monthlyTotals now purchasedItems) ym))

/-- The monthly-spending series of `getShoppingAnalytics`: the calculation
applied to the purchased items of the store. -/
def monthlySpending (st : DBState) (now : Date) : List (Int × Rat) :=
  calculateMonthlySpending now (st.items.filter (fun it => it.purchased))

/-- Sum of price × quantity over a list of items. -/
def spendSum (l : List Item) : Rat :=
  (l.map (fun it => it.price * (it.qty : Rat))).sum

/-- The change notifier (`DatabaseEventEmitter extends EventTarget`).
Handlers are identified by opaque naturals. Per the DOM standard that
`EventTarget` implements: `addEventListener` appends a listener unless the
same (event, callback) pair is already registered; `dispatchEvent` invokes
the listeners registered for the event synchronously, in registration
order, before returning. -/
structure Emitter where
  listeners : List (String × Nat)
  deriving DecidableEq, Repr

/-- `on(event, callback)` = `addEventListener`. -/
def Emitter.on (em : Emitter) (ev : String) (h : Nat) : Emitter :=
  if em.listeners.contains (ev, h) then em
  else { listeners := em.listeners ++ [(ev, h)] }

/-- `off(event, callback)` = `removeEventListener`. -/
def Emitter.off (em : Emitter) (ev : String) (h : Nat) : Emitter :=
  { listeners := em.listeners.filter (fun p => p != (ev, h)) }

/-- `emit(event)` = `dispatchEvent`: the value is the synchronous invocation
sequence the dispatch performs before returning — the handlers registered
for the event at that moment, in registration order. -/
def Emitter.emit (em : Emitter) (ev : String) : List Nat :=
  (em.listeners.filter (fun p => p.1 == ev)).map Prod.snd

/-- The (data, loading, error) triple of a `useLiveQuery` binding. -/
structure QueryState (T : Type) where
  data : Option T
  loading : Bool
  error : Option String
  deriving DecidableEq, Repr

/-- The head of `executeQuery`: `setLoading(true); setError(null)` before
the read is awaited, leaving `data` untouched. -/
def queryStart {T : Type} (s : QueryState T) : QueryState T :=
  { s with loading := true, error := none }

/-- `executeQuery`, given the outcome of the awaited read function: on
success store the result as `data`; on a throw store the error and keep
`data`; the finally block clears `loading` in both cases. -/
def executeQuery {T : Type} (s : QueryState T) (res : Except String T) :
    QueryState T :=
  match res with
  | Except.ok v => { queryStart s with data := some v, loading := false }
  | Except.error e => { queryStart s with error := some e, loading := false }

/-- The JS values the store mutations can return, used to state what each
function hands back to its caller on the failure path. -/
inductive JSValue where
  | jsList (l : ListRec)
  | jsItem (it : Item)
  | jsNull
  | jsBool (b : Bool)
  deriving DecidableEq, Repr

/-- The JS return value of `createList`. -/
def createListRet (eng : Engine) (now : Date) (st : DBState) (d : ListData) :
    JSValue :=
  JSValue.jsList (createList eng now st d).2

/-- The JS return value of `updateList` (`List | null`). -/
def updateListRet (eng : Engine) (now : Date) (st : DBState) (id : Nat)
    (u : ListUpdate) : JSValue :=
  match (updateList eng now st id u).2 with
  | some l => JSValue.jsList l
  | none => JSValue.jsNull

/-- The JS return value of `deleteList` (`boolean`). -/
def deleteListRet (eng : Engine) (now : Date) (st : DBState) (id : Nat) :
    JSValue :=
  JSValue.jsBool (deleteList eng now st id).2

/-- The JS return value of `deleteItem` (`boolean`). -/
def deleteItemRet (eng : Engine) (now : Date) (st : DBState) (id : Nat) :
    JSValue :=
  JSValue.jsBool (deleteItem eng now st id).2


/-! Helper lemmas about the store primitives. -/

theorem mem_putList (ls : List ListRec) (r : ListRec) : r ∈ putList ls r := by
  induction ls with
  | nil => simp [putList]
  | cons x xs ih =>
    simp only [putList]
    split
    · exact List.mem_cons_self _ _
    · exact List.mem_cons_of_mem _ ih

theorem mem_putItem (its : List Item) (r : Item) : r ∈ putItem its r := by
  induction its with
  | nil => simp [putItem]
  | cons x xs ih =>
    simp only [putItem]
    split
    · exact List.mem_cons_self _ _
    · exact List.mem_cons_of_mem _ ih

theorem findStat_putStat_self (ss : List ProductStat) (r : ProductStat) :
    findStat (putStat ss r) r.name = some r := by
  induction ss with
  | nil => simp [putStat, findStat, List.find?]
  | cons x xs ih =>
    simp only [putStat]
    split
    · simp [findStat, List.find?]
    · rename_i hx
      simpa [findStat, List.find?, hx] using ih

theorem findList_putList_none (ls : List ListRec) (r : ListRec) (id : Nat)
    (hls : findList ls id = none) (hne : r.id ≠ id) :
    findList (putList ls r) id = none := by
  have hr : (r.id == id) = false := beq_eq_false_iff_ne.mpr hne
  induction ls with
  | nil =>
    simp only [putList, findList, List.find?, hr]
  | cons x xs ih =>
    have hx : (x.id == id) = false := by
      cases hb : (x.id == id) with
      | true => simp [findList, List.find?, hb] at hls
      | false => rfl
    have hxs : findList xs id = none := by
      simpa only [findList, List.find?, hx] using hls
    simp only [putList]
    split
    · simp only [findList, List.find?, hr]
      simpa only [findList] using hxs
    · simp only [findList, List.find?, hx]
      simpa only [findList] using ih hxs

theorem replayOp_ok_queue (now : Date) (st : DBState) (o : OfflineOperation) :
    (replayOp Engine.ok now st o).queue = st.queue := by
  rcases o with ⟨i, op, t⟩
  cases op with
  | opCreateList l =>
    simp [replayOp, createList, Engine.ok]
  | opUpdateList id u =>
    simp only [replayOp, updateList, Engine.ok]
    split
    · simp at *
    · split
      · rfl
      · rename_i ex _
        split <;> rfl
  | opDeleteList id =>
    simp only [replayOp, deleteList, Engine.ok]
    split
    · simp at *
    · split <;> rfl
  | opCreateItem it =>
    simp only [replayOp, createItem, updateProductStats, Engine.ok]
    split
    · simp at *
    · rfl
  | opUpdateItem id u =>
    simp only [replayOp, updateItem, updateProductStats, Engine.ok]
    split
    · simp at *
    · split
      · rfl
      · split <;> rfl
  | opDeleteItem id =>
    simp only [replayOp, deleteItem, Engine.ok]
    split
    · simp at *
    · split <;> rfl

theorem foldl_replayOp_ok_queue (now : Date) (ops : List OfflineOperation) :
    ∀ st : DBState, (List.foldl (replayOp Engine.ok now) st ops).queue = st.queue := by
  induction ops with
  | nil => intro st; rfl
  | cons o os ih =>
    intro st
    rw [List.foldl_cons, ih (replayOp Engine.ok now st o), replayOp_ok_queue]

/-- C2: when every replayed operation succeeds (no store throws during the
drain), one call to `processOfflineQueue` leaves the offline queue empty,
and a second call finds the queue empty, performs no store operation and
returns the state unchanged. -/
theorem processOfflineQueue_drain_idempotent (now now2 : Date) (st : DBState) :
    (processOfflineQueue Engine.ok now st).queue = []
    ∧ processOfflineQueue Engine.ok now2 (processOfflineQueue Engine.ok now st) =
        processOfflineQueue Engine.ok now st := by
  have hq : (processOfflineQueue Engine.ok now st).queue = [] := by
    unfold processOfflineQueue
    split
    · rename_i h
      simpa using h
    · exact foldl_replayOp_ok_queue now st.queue { st with queue := [] }
  refine ⟨hq, ?_⟩
  rw [processOfflineQueue, hq]
  simp

theorem newStat_fields (old : Option ProductStat) (name : String) (price : Rat)
    (cat : Option String) (now : Date) :
    (newStat old name price cat now).name = name
    ∧ (newStat old name price cat now).usedCount =
        (old.map ProductStat.usedCount).getD 0 + 1
    ∧ (newStat old name price cat now).totalSpend =
        (old.map ProductStat.totalSpend).getD 0 + price
    ∧ (newStat old name price cat now).averagePrice =
        (newStat old name price cat now).totalSpend /
          ((newStat old name price cat now).usedCount : Rat) := by
  cases old with
  | none => refine ⟨rfl, rfl, ?_, rfl⟩; simp [newStat]
  | some e => exact ⟨rfl, rfl, rfl, rfl⟩

/-- C1: every item creation, and every item update whose patch supplies a
name or a price, upserts the ProductStat record keyed by the (merged) item
name: usedCount grows by 1, totalSpend grows by the unit price (not price
times quantity), and averagePrice is totalSpend divided by usedCount. -/
theorem itemWrite_upserts_productStat (now : Date) (st : DBState) (d : ItemData)
    (id : Nat) (u : ItemUpdate) (ex : Item)
    (hu : u.name.isSome = true ∨ u.price.isSome = true)
    (hex : findItem st.items id = some ex) :
    (∃ r, findStat ((createItem Engine.ok now st d).1).stats d.name = some r
       ∧ r.usedCount = ((findStat st.stats d.name).map ProductStat.usedCount).getD 0 + 1
       ∧ r.totalSpend = ((findStat st.stats d.name).map ProductStat.totalSpend).getD 0 + d.price
       ∧ r.averagePrice = r.totalSpend / (r.usedCount : Rat))
    ∧ (∃ r, findStat ((updateItem Engine.ok now st id u).1).stats
          (applyItemUpdate ex u).name = some r
       ∧ r.usedCount =
           ((findStat st.stats (applyItemUpdate ex u).name).map ProductStat.usedCount).getD 0 + 1
       ∧ r.totalSpend =
           ((findStat st.stats (applyItemUpdate ex u).name).map ProductStat.totalSpend).getD 0
             + (applyItemUpdate ex u).price
       ∧ r.averagePrice = r.totalSpend / (r.usedCount : Rat)) := by
  constructor
  · refine ⟨newStat (findStat st.stats d.name) d.name d.price d.category now, ?_, ?_, ?_, ?_⟩
    · show findStat (putStat st.stats _) d.name = _
      have := findStat_putStat_self st.stats
        (newStat (findStat st.stats d.name) d.name d.price d.category now)
      simpa [(newStat_fields _ _ _ _ _).1] using this
    · exact (newStat_fields _ _ _ _ _).2.1
    · exact (newStat_fields _ _ _ _ _).2.2.1
    · exact (newStat_fields _ _ _ _ _).2.2.2
  · have hb : (u.name.isSome || u.price.isSome) = true := by
      rcases hu with h | h <;> simp [h]
    refine ⟨newStat (findStat st.stats (applyItemUpdate ex u).name)
        (applyItemUpdate ex u).name (applyItemUpdate ex u).price
        (applyItemUpdate ex u).category now, ?_, ?_, ?_, ?_⟩
    · show findStat ((updateItem Engine.ok now st id u).1).stats _ = _
      rw [updateItem]
      simp only [Engine.ok, Bool.false_eq_true, if_false, hex, hb, if_true]
      show findStat (putStat st.stats _) _ = _
      have := findStat_putStat_self st.stats
        (newStat (findStat st.stats (applyItemUpdate ex u).name)
          (applyItemUpdate ex u).name (applyItemUpdate ex u).price
          (applyItemUpdate ex u).category now)
      simpa [(newStat_fields _ _ _ _ _).1] using this
    · exact (newStat_fields _ _ _ _ _).2.1
    · exact (newStat_fields _ _ _ _ _).2.2.1
    · exact (newStat_fields _ _ _ _ _).2.2.2

/-! Concrete fixtures used by witnesses and counterexamples. -/

/-- The instant used by concrete scenarios. -/
def time0 : Date := ⟨0, 0⟩

/-- A fresh, empty store. -/
def emptyState : DBState := ⟨[], [], [], [], [], 0⟩

/-- An engine whose lists store throws on every access. -/
def engListsDown : Engine := ⟨true, false, false⟩

/-- An engine on which every store throws. -/
def engAllDown : Engine := ⟨true, true, true⟩

/-- An engine on which only the productStats store throws. -/
def engStatsDown : Engine := ⟨false, false, true⟩

/-- A concrete item: Milk, quantity 3, unit price 2. -/
def milkItem : Item := ⟨0, 9, "Milk", 3, 2, false, none, none, none⟩

/-- A store holding only `milkItem`. -/
def stMilk : DBState := ⟨[], [milkItem], [], [], [], 5⟩

/-- The `createItem` payload of `milkItem`. -/
def milkData : ItemData := ⟨9, "Milk", 3, 2, false, none, none, none⟩

/-- An item patch supplying only a new price. -/
def priceOnlyUpdate : ItemUpdate := ⟨none, none, none, some 4, none, none, none⟩

/-- Witness for C1 at a concrete input: creating Milk (price 2, qty 3) in
`stMilk`, and patching the stored Milk item with price 4. -/
theorem itemWrite_upserts_productStat_witness :
    (priceOnlyUpdate.name.isSome = true ∨ priceOnlyUpdate.price.isSome = true)
    ∧ findItem stMilk.items 0 = some milkItem
    ∧ ((∃ r, findStat ((createItem Engine.ok time0 stMilk milkData).1).stats milkData.name = some r
         ∧ r.usedCount = ((findStat stMilk.stats milkData.name).map ProductStat.usedCount).getD 0 + 1
         ∧ r.totalSpend = ((findStat stMilk.stats milkData.name).map ProductStat.totalSpend).getD 0 + milkData.price
         ∧ r.averagePrice = r.totalSpend / (r.usedCount : Rat))
      ∧ (∃ r, findStat ((updateItem Engine.ok time0 stMilk 0 priceOnlyUpdate).1).stats
            (applyItemUpdate milkItem priceOnlyUpdate).name = some r
         ∧ r.usedCount =
             ((findStat stMilk.stats (applyItemUpdate milkItem priceOnlyUpdate).name).map ProductStat.usedCount).getD 0 + 1
         ∧ r.totalSpend =
             ((findStat stMilk.stats (applyItemUpdate milkItem priceOnlyUpdate).name).map ProductStat.totalSpend).getD 0
               + (applyItemUpdate milkItem priceOnlyUpdate).price
         ∧ r.averagePrice = r.totalSpend / (r.usedCount : Rat))) :=
  ⟨Or.inr rfl, rfl,
    itemWrite_upserts_productStat time0 stMilk milkData 0 priceOnlyUpdate milkItem
      (Or.inr rfl) rfl⟩

/-- C10: every record the ProductStat upsert writes has usedCount at least 1
and averagePrice equal to totalSpend divided by usedCount (the upsert on an
available engine writes exactly `newStat` of the existing record); and the
upsert swallows storage faults — on a throwing stats store the state is
untouched, and an item create still succeeds: it returns the constructed
item and the item is in the store. -/
theorem productStat_invariant_and_no_propagation (old : Option ProductStat)
    (name : String) (price : Rat) (cat : Option String) (now : Date)
    (st : DBState) (d : ItemData) :
    1 ≤ (newStat old name price cat now).usedCount
    ∧ (newStat old name price cat now).averagePrice =
        (newStat old name price cat now).totalSpend /
          ((newStat old name price cat now).usedCount : Rat)
    ∧ (updateProductStats Engine.ok now st name price cat).stats =
        putStat st.stats (newStat (findStat st.stats name) name price cat now)
    ∧ updateProductStats engStatsDown now st name price cat = st
    ∧ (createItem engStatsDown now st d).2 = d.withId st.nextUuid
    ∧ d.withId st.nextUuid ∈ ((createItem engStatsDown now st d).1).items := by
  refine ⟨?_, (newStat_fields _ _ _ _ _).2.2.2, rfl, rfl, rfl, ?_⟩
  · cases old with
    | none => exact le_refl 1
    | some e => exact Nat.succ_le_succ (Nat.zero_le _)
  · show d.withId st.nextUuid ∈ putItem st.items (d.withId st.nextUuid)
    exact mem_putItem _ _

/-- C4: `getLists` returns exactly the lists whose deletion timestamp is
unset — as a permutation of the undeleted records, sorted by last-update
descending, with membership characterized — and a just-created list (whose
payload carries no deletion timestamp) is among the results. -/
theorem getLists_undeleted_sorted (st : DBState) (d : ListData) (now : Date)
    (hd : d.deletedAt = none) :
    List.Sorted listsDescOrd (getLists st)
    ∧ (getLists st).Perm (st.lists.filter (fun l => l.deletedAt.isNone))
    ∧ (∀ l : ListRec, l ∈ getLists st ↔ l ∈ st.lists ∧ l.deletedAt = none)
    ∧ (createList Engine.ok now st d).2 ∈ getLists ((createList Engine.ok now st d).1) := by
  refine ⟨List.sorted_insertionSort listsDescOrd _,
    List.perm_insertionSort listsDescOrd _, ?_, ?_⟩
  · intro l
    rw [getLists, (List.perm_insertionSort listsDescOrd _).mem_iff, List.mem_filter,
      Option.isNone_iff_eq_none]
  · show (⟨st.nextUuid, d.name, d.currency, now, now, d.deletedAt⟩ : ListRec) ∈
      getLists _
    rw [getLists, (List.perm_insertionSort listsDescOrd _).mem_iff, List.mem_filter]
    exact ⟨mem_putList _ _, by simp [hd]⟩

/-- A list updated most recently at tick 5, not deleted. -/
def liveList : ListRec := ⟨1, "A", "EUR", time0, ⟨0, 5⟩, none⟩

/-- A soft-deleted list. -/
def deadList : ListRec := ⟨2, "B", "EUR", time0, ⟨0, 9⟩, some time0⟩

/-- A store holding one live and one soft-deleted list. -/
def stLists : DBState := ⟨[liveList, deadList], [], [], [], [], 3⟩

/-- A creation payload with no deletion timestamp. -/
def newListData : ListData := ⟨"C", "EUR", none⟩

/-- Witness for C4 at a concrete store with a live and a soft-deleted
list. -/
theorem getLists_undeleted_sorted_witness :
    newListData.deletedAt = none
    ∧ List.Sorted listsDescOrd (getLists stLists)
    ∧ (getLists stLists).Perm (stLists.lists.filter (fun l => l.deletedAt.isNone))
    ∧ (liveList ∈ getLists stLists ↔ liveList ∈ stLists.lists ∧ liveList.deletedAt = none)
    ∧ (createList Engine.ok time0 stLists newListData).2 ∈
        getLists ((createList Engine.ok time0 stLists newListData).1) :=
  ⟨rfl,
    (getLists_undeleted_sorted stLists newListData time0 rfl).1,
    (getLists_undeleted_sorted stLists newListData time0 rfl).2.1,
    (getLists_undeleted_sorted stLists newListData time0 rfl).2.2.1 liveList,
    (getLists_undeleted_sorted stLists newListData time0 rfl).2.2.2⟩

/-- C5: on an available store, updating a list id that does not exist or
whose record is soft-deleted, and updating an item id that does not exist,
return the null sentinel and leave the whole state — collections, queue and
event log — unchanged. -/
theorem update_missing_is_noop (now : Date) (st : DBState) (idL idI : Nat)
    (u : ListUpdate) (v : ItemUpdate)
    (hL : findList st.lists idL = none
      ∨ ∃ ex, findList st.lists idL = some ex ∧ ex.deletedAt.isSome = true)
    (hI : findItem st.items idI = none) :
    updateList Engine.ok now st idL u = (st, none)
    ∧ updateItem Engine.ok now st idI v = (st, none) := by
  constructor
  · rw [updateList]
    rcases hL with h | ⟨ex, hex, hdel⟩
    · simp [Engine.ok, h]
    · simp [Engine.ok, hex, hdel]
  · rw [updateItem]
    simp [Engine.ok, hI]

/-- Witness for C5: a store whose only list is soft-deleted, updating that
list, a missing list id, and a missing item id. -/
theorem update_missing_is_noop_witness :
    (findList stLists.lists 2 = some deadList ∧ deadList.deletedAt.isSome = true)
    ∧ findItem stLists.items 7 = none
    ∧ updateList Engine.ok time0 stLists 2 ⟨some "X", none⟩ = (stLists, none)
    ∧ updateItem Engine.ok time0 stLists 7 priceOnlyUpdate = (stLists, none) :=
  ⟨⟨rfl, rfl⟩, rfl,
    (update_missing_is_noop time0 stLists 2 7 ⟨some "X", none⟩ priceOnlyUpdate
      (Or.inr ⟨deadList, rfl, rfl⟩) rfl).1,
    (update_missing_is_noop time0 stLists 2 7 ⟨some "X", none⟩ priceOnlyUpdate
      (Or.inr ⟨deadList, rfl, rfl⟩) rfl).2⟩

theorem lookupTotal_addToTotals (m : List (Int × Rat)) (k0 k : Int) (a : Rat) :
    lookupTotal (addToTotals m k0 a) k =
      if k0 = k then lookupTotal m k + a else lookupTotal m k := by
  induction m with
  | nil =>
    by_cases h : k0 = k
    · subst h; simp [addToTotals, lookupTotal, List.find?]
    · have hb : (k0 == k) = false := beq_eq_false_iff_ne.mpr h
      simp [addToTotals, lookupTotal, List.find?, hb, h]
  | cons p rest ih =>
    rcases p with ⟨q, b⟩
    simp only [addToTotals]
    split
    · rename_i hq
      have hq0 : q = k0 := by simpa using hq
      subst hq0
      by_cases hk : q = k
      · subst hk; simp [lookupTotal, List.find?]
      · have hb : (q == k) = false := beq_eq_false_iff_ne.mpr hk
        simp [lookupTotal, List.find?, hb, hk]
    · rename_i hq
      have hq0 : q ≠ k0 := by simpa using hq
      by_cases hqk : q = k
      · subst hqk
        have hk0 : k0 ≠ q := fun h => hq0 h.symm
        simp [lookupTotal, List.find?, hk0]
      · have hb : (q == k) = false := beq_eq_false_iff_ne.mpr hqk
        simp only [lookupTotal, List.find?, hb] at *
        exact ih

theorem lookupTotal_foldl (now : Date) (items : List Item) (k : Int) :
    ∀ m : List (Int × Rat),
      lookupTotal (items.foldl
        (fun m it => addToTotals m (effectiveYm now it) (it.price * (it.qty : Rat))) m) k
      = lookupTotal m k
        + spendSum (items.filter (fun it => effectiveYm now it == k)) := by
  induction items with
  | nil => intro m; simp [spendSum]
  | cons it its ih =>
    intro m
    rw [List.foldl_cons, ih, lookupTotal_addToTotals]
    by_cases h : effectiveYm now it = k
    · have hb : (effectiveYm now it == k) = true := beq_iff_eq.mpr h
      rw [if_pos h]
      simp only [List.filter_cons, hb, if_true, spendSum, List.map_cons, List.sum_cons]
      ring
    · have hb : (effectiveYm now it == k) = false := beq_eq_false_iff_ne.mpr h
      simp [h, List.filter_cons, hb]

/-- C6: the monthly spending series has exactly 12 entries, whose months are
the trailing 12 calendar months ending at the current one, oldest first, and
whose amounts are the sums of price × quantity over the purchased items
whose effective date falls in that month. -/
theorem monthlySpending_trailing_12_months (st : DBState) (now : Date) :
    monthlySpending st now =
      (List.range 12).map (fun (j : Nat) =>
        (now.ym - 11 + (j : Int),
         spendSum (st.items.filter (fun it =>
           it.purchased && (effectiveYm now it == now.ym - 11 + (j : Int))))))
    ∧ (monthlySpending st now).length = 12 := by
  constructor
  · rw [monthlySpending, calculateMonthlySpending]
    refine List.map_congr_left ?_
    intro j _
    have harith : now.ym - (11 - (j : Int)) = now.ym - 11 + (j : Int) := by ring
    show (now.ym - (11 - (j : Int)),
        lookupTotal (monthlyTotals now (st.items.filter (fun it => it.purchased)))
          (now.ym - (11 - (j : Int)))) = _
    rw [harith, monthlyTotals, lookupTotal_foldl now _ _ []]
    have hz : lookupTotal [] (now.ym - 11 + (j : Int)) = 0 := rfl
    rw [hz, zero_add, List.filter_filter]
    exact congrArg (fun l => (now.ym - 11 + (j : Int), spendSum l))
      (List.filter_congr (fun a _ => Bool.and_comm _ _))
  · simp [monthlySpending, calculateMonthlySpending]

/-- C7 counterexample: on a throwing lists store, `deleteList` returns the
boolean false, not null, so the claim that delete returns null on a storage
exception is false at this input. -/
theorem deleteList_fail_returns_false_not_null :
    deleteListRet engListsDown time0 emptyState 0 = JSValue.jsBool false
    ∧ deleteItemRet engAllDown time0 emptyState 0 = JSValue.jsBool false
    ∧ JSValue.jsBool false ≠ JSValue.jsNull := by
  refine ⟨rfl, rfl, ?_⟩
  intro h
  cases h

/-- C7 amended: a storage exception during create, update or delete is
caught and the operation is appended to the offline queue; create returns
the constructed record, update returns null, and delete returns false (not
null). -/
theorem write_failure_queued_soft_returns (now : Date) (st : DBState)
    (d : ListData) (d2 : ItemData) (id1 id2 id3 id4 : Nat) (u : ListUpdate)
    (v : ItemUpdate) :
    ((createList engAllDown now st d).2 =
        (⟨st.nextUuid, d.name, d.currency, now, now, d.deletedAt⟩ : ListRec)
      ∧ (createList engAllDown now st d).1.queue = st.queue ++
          [⟨st.nextUuid + 1,
            OpData.opCreateList ⟨st.nextUuid, d.name, d.currency, now, now, d.deletedAt⟩,
            now⟩])
    ∧ ((updateList engAllDown now st id1 u).2 = none
      ∧ (updateList engAllDown now st id1 u).1.queue = st.queue ++
          [⟨st.nextUuid, OpData.opUpdateList id1 u, now⟩])
    ∧ ((deleteList engAllDown now st id2).2 = false
      ∧ (deleteList engAllDown now st id2).1.queue = st.queue ++
          [⟨st.nextUuid, OpData.opDeleteList id2, now⟩])
    ∧ ((deleteItem engAllDown now st id3).2 = false
      ∧ (deleteItem engAllDown now st id3).1.queue = st.queue ++
          [⟨st.nextUuid, OpData.opDeleteItem id3, now⟩])
    ∧ ((createItem engAllDown now st d2).2 = d2.withId st.nextUuid
      ∧ (createItem engAllDown now st d2).1.queue = st.queue ++
          [⟨st.nextUuid + 1, OpData.opCreateItem (d2.withId st.nextUuid), now⟩])
    ∧ ((updateItem engAllDown now st id4 v).2 = none
      ∧ (updateItem engAllDown now st id4 v).1.queue = st.queue ++
          [⟨st.nextUuid, OpData.opUpdateItem id4 v, now⟩]) :=
  ⟨⟨rfl, rfl⟩, ⟨rfl, rfl⟩, ⟨rfl, rfl⟩, ⟨rfl, rfl⟩, ⟨rfl, rfl⟩, ⟨rfl, rfl⟩⟩

/-- C8: for a handler not yet registered, registering it makes the next
emission invoke it last — after all previously registered handlers, in
registration order — while the emission over the previous listener table
never invokes it: a handler registered only after an emit has completed is
not part of that invocation sequence, and the invocation sequence is
exactly the handlers registered at the moment of emission. -/
theorem emit_registration_order (em : Emitter) (ev : String) (h : Nat)
    (hnew : (ev, h) ∉ em.listeners) :
    Emitter.emit (Emitter.on em ev h) ev = Emitter.emit em ev ++ [h]
    ∧ h ∉ Emitter.emit em ev := by
  constructor
  · have hc : em.listeners.contains (ev, h) = false := by
      simpa using hnew
    rw [Emitter.on, hc]
    simp [Emitter.emit, List.filter_append]
  · intro hmem
    rcases List.mem_map.mp hmem with ⟨p, hp, hsnd⟩
    rcases List.mem_filter.mp hp with ⟨hpl, hfst⟩
    have h1 : p.1 = ev := by simpa using hfst
    have : (ev, h) ∈ em.listeners := by
      have : p = (ev, h) := Prod.ext h1 hsnd
      rwa [this] at hpl
    exact hnew this

/-- Witness for C8: one registered handler, a second registered later. -/
theorem emit_registration_order_witness :
    ("a", 2) ∉ (Emitter.mk [("a", 1)]).listeners
    ∧ Emitter.emit (Emitter.on (Emitter.mk [("a", 1)]) "a" 2) "a" =
        Emitter.emit (Emitter.mk [("a", 1)]) "a" ++ [2]
    ∧ 2 ∉ Emitter.emit (Emitter.mk [("a", 1)]) "a" :=
  ⟨by decide,
    (emit_registration_order (Emitter.mk [("a", 1)]) "a" 2 (by decide)).1,
    (emit_registration_order (Emitter.mk [("a", 1)]) "a" 2 (by decide)).2⟩

/-- C9: at the start of every read attempt the binding clears the error and
raises the loading flag while keeping the previous data; when the read
throws, the error is stored, the data keeps its last known value, and
loading ends false. -/
theorem liveQuery_error_handling (T : Type) (s : QueryState T)
    (res : Except String T) (e : String) (herr : res = Except.error e) :
    (queryStart s).loading = true
    ∧ (queryStart s).error = none
    ∧ (queryStart s).data = s.data
    ∧ executeQuery s res =
        { data := s.data, loading := false, error := some e } := by
  subst herr
  exact ⟨rfl, rfl, rfl, rfl⟩

/-- Witness for C9: a binding holding data 5 and a stale error, whose read
now throws. -/
theorem liveQuery_error_handling_witness :
    ((Except.error "boom" : Except String Nat) = Except.error "boom")
    ∧ (queryStart (⟨some 5, false, some "old"⟩ : QueryState Nat)).loading = true
    ∧ (queryStart (⟨some 5, false, some "old"⟩ : QueryState Nat)).error = none
    ∧ (queryStart (⟨some 5, false, some "old"⟩ : QueryState Nat)).data = some 5
    ∧ executeQuery (⟨some 5, false, some "old"⟩ : QueryState Nat)
        (Except.error "boom") =
        { data := some 5, loading := false, error := some "boom" } :=
  ⟨rfl,
    (liveQuery_error_handling Nat ⟨some 5, false, some "old"⟩
      (Except.error "boom") "boom" rfl).1,
    (liveQuery_error_handling Nat ⟨some 5, false, some "old"⟩
      (Except.error "boom") "boom" rfl).2.1,
    (liveQuery_error_handling Nat ⟨some 5, false, some "old"⟩
      (Except.error "boom") "boom" rfl).2.2.1,
    (liveQuery_error_handling Nat ⟨some 5, false, some "old"⟩
      (Except.error "boom") "boom" rfl).2.2.2⟩

/-- The state after a list create and then an update of that list both
failed against a throwing lists store: the queue holds the create (with the
originally assigned id 0 in its payload) followed by the update targeting
id 0. -/
def queuedCreateUpdateState : DBState :=
  (updateList engListsDown time0
    (createList engListsDown time0 emptyState ⟨"Groceries", "EUR", none⟩).1
    0 ⟨some "Renamed", none⟩).1

/-- C3 counterexample: replaying the queued create + update with no
failures does not converge to the updated record — the replayed create
draws a fresh uuid (3), so the queued update still targets id 0, finds
nothing, and is dropped; the final store holds the list under the new id
with its original name, not the updated one. -/
theorem replay_create_then_update_diverges :
    queuedCreateUpdateState.queue =
      [⟨1, OpData.opCreateList ⟨0, "Groceries", "EUR", time0, time0, none⟩, time0⟩,
       ⟨2, OpData.opUpdateList 0 ⟨some "Renamed", none⟩, time0⟩]
    ∧ (processOfflineQueue Engine.ok time0 queuedCreateUpdateState).lists =
        [⟨3, "Groceries", "EUR", time0, time0, none⟩]
    ∧ (processOfflineQueue Engine.ok time0 queuedCreateUpdateState).queue = [] :=
  ⟨rfl, rfl, rfl⟩

/-- C3 amended: replaying a queued create followed by a queued update of
the same logical record applies both in enqueue order, but the create is
re-executed under a fresh uuid, so the update — still targeting the
originally assigned id — finds no record and is a silent no-op: the drained
store holds a newly-keyed copy of the created record without the update
applied. -/
theorem replay_create_then_update_amended (now t1 t2 : Date) (st : DBState)
    (l : ListRec) (u : ListUpdate) (i1 i2 : Nat)
    (hq : st.queue =
      [⟨i1, OpData.opCreateList l, t1⟩, ⟨i2, OpData.opUpdateList l.id u, t2⟩])
    (hmiss : findList st.lists l.id = none)
    (hfresh : st.nextUuid ≠ l.id) :
    processOfflineQueue Engine.ok now st =
      { lists := putList st.lists ⟨st.nextUuid, l.name, l.currency, now, now, l.deletedAt⟩,
        items := st.items,
        stats := st.stats,
        queue := [],
        events := st.events ++
          [DBEvent.listsChanged "create"
            ⟨st.nextUuid, l.name, l.currency, now, now, l.deletedAt⟩],
        nextUuid := st.nextUuid + 1 } := by
  have hempty : st.queue.isEmpty = false := by rw [hq]; rfl
  unfold processOfflineQueue
  rw [hempty, hq]
  simp only [Bool.false_eq_true, if_false, List.foldl_cons, List.foldl_nil, replayOp]
  have hcreate : (createList Engine.ok now { st with queue := [] }
      ⟨l.name, l.currency, l.deletedAt⟩).1 =
      { st with
        queue := [],
        lists := putList st.lists ⟨st.nextUuid, l.name, l.currency, now, now, l.deletedAt⟩,
        events := st.events ++
          [DBEvent.listsChanged "create"
            ⟨st.nextUuid, l.name, l.currency, now, now, l.deletedAt⟩],
        nextUuid := st.nextUuid + 1 } := rfl
  rw [hcreate]
  have hfind : findList
      (putList st.lists ⟨st.nextUuid, l.name, l.currency, now, now, l.deletedAt⟩)
      l.id = none :=
    findList_putList_none st.lists _ l.id hmiss hfresh
  rw [updateList]
  simp only [Engine.ok, Bool.false_eq_true, if_false, hfind]

/-- Witness for the amended C3 at the concrete queued-create/update
scenario. -/
theorem replay_create_then_update_amended_witness :
    queuedCreateUpdateState.queue =
      [⟨1, OpData.opCreateList ⟨0, "Groceries", "EUR", time0, time0, none⟩, time0⟩,
       ⟨2, OpData.opUpdateList 0 ⟨some "Renamed", none⟩, time0⟩]
    ∧ findList queuedCreateUpdateState.lists 0 = none
    ∧ queuedCreateUpdateState.nextUuid ≠ 0
    ∧ processOfflineQueue Engine.ok time0 queuedCreateUpdateState =
        { lists := [⟨3, "Groceries", "EUR", time0, time0, none⟩],
          items := [],
          stats := [],
          queue := [],
          events := [DBEvent.listsChanged "create"
            ⟨3, "Groceries", "EUR", time0, time0, none⟩],
          nextUuid := 4 } :=
  ⟨rfl, rfl, by decide,
    replay_create_then_update_amended time0 time0 time0 queuedCreateUpdateState
      ⟨0, "Groceries", "EUR", time0, time0, none⟩ ⟨some "Renamed", none⟩ 1 2
      rfl rfl (by decide)⟩
